import Mathlib

/-!
Verification development for the Lens indexing engine.

Shallow embedding of the Go sources:
* `lens.go` (package `lens`): `Magnify`, `Store`, `KeywordSearch`.
* the gRPC server file (package `server`): the `Index` and `Search` handlers.

Modelling conventions, used throughout:
* The key-value datastore (`search.Service` with `Has`/`Get`/`Put`) keeps raw
  bytes under string keys.  We embed the bytes as a typed `Entry`: a name
  record holds the raw text of a uuid (`Put(name, []byte(id.String()))`), an
  object record holds a JSON-marshalled `models.Object`, and a keyword record
  holds a JSON-marshalled `models.Keyword`.  All three families share the one
  keyspace, exactly as in the source.  `json.Unmarshal` of a record of the
  wrong family into `models.Keyword` is embedded as a decode failure
  (`unmarshalFailed`): a name record holds bare uuid text, which is not valid
  JSON (the `models` package itself is not part of the given sources).
* `uuid.NewV4` is a random 128-bit id; v4 collisions are assumed away, so the
  generator is embedded as an injective fresh-id supply `genId` driven by a
  counter in the service state.  `id.String()` is the identity on our ids.
* External collaborators (IPFS content fetch, `http.DetectContentType`,
  PDF text extraction, the image classifier, the keyword derivation inside
  the text analyzer, `DagPut`, and the keyword-search primitive) are opaque
  oracles collected in `Env`; their outputs are unconstrained.
* Go errors are strings; we embed the distinct error sites as constructors
  of `Err`, keeping collaborator messages as payloads.
-/

/-- Canonical string form of a v4 uuid (`uuid.UUID`; `id.String()` is the
identity under this embedding). -/
abbrev UUID := String

/-- Raw fetched content (`[]byte`). -/
abbrev Bytes := List Nat

/-- Embeds `models.MetaData`: summary keywords, full detected mime type, category. -/
structure MetaData where
  Summary : List String
  MimeType : String
  Category : String
deriving DecidableEq, Repr

/-- Embeds `models.Object`: one indexed unit. -/
structure Object where
  LensID : UUID
  Name : String
  MetaData : MetaData
deriving DecidableEq, Repr

/-- Embeds `models.Keyword`: inverted-index record for one keyword. -/
structure Keyword where
  Name : String
  LensIdentifiers : List UUID
deriving DecidableEq, Repr

/-- A stored datastore value, typed by which record family wrote it. -/
inductive Entry where
  | nameE : UUID → Entry
  | objE : Object → Entry
  | keyE : Keyword → Entry
deriving DecidableEq, Repr

/-- The datastore: one shared keyspace of string keys. -/
abbrev KV := String → Option Entry

/-- Embeds `ss.Put(k, bytes)`. -/
def kvPut (kv : KV) (k : String) (e : Entry) : KV :=
  fun q => if q = k then some e else kv q

/-- Modelled from the spec: the transient state of `text.Analyzer` — the
text-summarization collaborator holds a working corpus between calls and
`Clear()` resets it (the `analyzer/text` package is not part of the given
sources). -/
structure Analyzer where
  corpus : List String
deriving DecidableEq, Repr

/-- The error taxonomy of the embedded code, one constructor per error site. -/
inductive Err where
  | alreadyIndexed
  | unsupportedContentType
  | notFound
  | invalidDataType
  | invalidUUID
  | invalidReference
  | unmarshalFailed
  | panicIndexOutOfRange
  | extractFailed : String → Err
  | pdfFailed : String → Err
  | imageFailed : String → Err
  | dagPutFailed : String → Err
  | searchFailed : String → Err
deriving DecidableEq, Repr

/-- Oracles for the external collaborators (see module docstring). -/
structure Env where
  ExtractContents : String → Except String Bytes
  DetectContentType : Bytes → String
  BytesToString : Bytes → String
  PdfPlainText : Bytes → Except String String
  ClassifyImage : Bytes → Except String String
  SummarizeKeywords : List String → ℚ → List String
  DagPut : Object → Except String String
  KeywordSearch : KV → List String → Except String (List Object)

/-- The mutable state reachable through a `lens.Service`: the datastore, the
text analyzer's transient state, and the fresh-uuid supply counter. -/
structure ServiceState where
  kv : KV
  ta : Analyzer
  ctr : Nat

/-- The fresh-id supply standing in for `uuid.NewV4` (injective; v4
collisions are assumed away). -/
def genId (n : Nat) : UUID := String.mk (List.replicate (n + 1) 'i')

/-- The service state at start-up: empty datastore, empty corpus. -/
def initialState : ServiceState := ⟨fun _ => none, ⟨[]⟩, 0⟩

/-- Modelled from the spec: `ta.Summarize(text, ratio)` adds the text to
the working corpus and derives the keywords from the accumulated corpus by
the opaque summarization algorithm. -/
def Analyzer.summarize (env : Env) (a : Analyzer) (text : String) (ratio : ℚ) :
    List String × Analyzer :=
  let a' : Analyzer := ⟨a.corpus ++ [text]⟩
  (env.SummarizeKeywords a'.corpus ratio, a')

/-- Modelled from the spec: `ta.Clear()` resets the working corpus. -/
def Analyzer.clear (_a : Analyzer) : Analyzer := ⟨[]⟩

/-- Modelled from the spec: `utils.Unique` deduplicates the raw keyword
list, first-occurrence order preserved (the `utils` package is not part of
the given sources); worker over the seen accumulator. -/
def uniqueAux (seen : List String) : List String → List String
  | [] => []
  | x :: xs => if x ∈ seen then uniqueAux seen xs else x :: uniqueAux (x :: seen) xs

/-- Modelled from the spec: `utils.Unique` (entry point). -/
def uniqueList (l : List String) : List String := uniqueAux [] l

/-- Split a character list at every separator, keeping empty runs
(structural recursion, so concrete instances evaluate by reduction). -/
def splitChars (sep : Char) (acc : List Char) : List Char → List (List Char)
  | [] => [acc.reverse]
  | c :: cs =>
    if c == sep then acc.reverse :: splitChars sep [] cs
    else splitChars sep (c :: acc) cs

/-- Embeds `strings.FieldsFunc(s, f)[0]` where `f` matches exactly `sep`: first
nonempty maximal run between separators, `none` when there is no field (in
which case the Go code panics with an index out of range). -/
def fieldsFuncHead (sep : Char) (s : String) : Option String :=
  ((((splitChars sep [] s.data).filter (fun t => !t.isEmpty)).head?).map String.mk)

/-- The content-type dispatch inside `Magnify` (`lens.go`): the outer switch
on `parsed[0]` with the inner switch on `parsed2[0]` in its default branch.
Returns category and raw keyword list, threading the analyzer state. -/
def Classify (env : Env) (ta : Analyzer) (contents : Bytes) (p0 contentType : String) :
    Except Err (String × List String) × Analyzer :=
  if p0 = "application/pdf" then
    match env.PdfPlainText contents with
    | .error e => (.error (.pdfFailed e), ta)
    | .ok text =>
      let r := ta.summarize env text (0.25 : ℚ)
      (.ok ("pdf", r.1), r.2)
  else
    match fieldsFuncHead '/' contentType with
    | none => (.error .panicIndexOutOfRange, ta)
    | some p2 =>
      if p2 = "text" then
        let r := ta.summarize env (env.BytesToString contents) (0.25 : ℚ)
        (.ok ("document", r.1), r.2)
      else if p2 = "image" then
        match env.ClassifyImage contents with
        | .error e => (.error (.imageFailed e), ta)
        | .ok keyword => (.ok ("image", [keyword]), ta)
      else (.error .unsupportedContentType, ta)

/-- The body of `Magnify` after the already-indexed guard: fetch the bytes,
sniff the content type, dispatch, clear the analyzer, and build the
`models.MetaData` (summary deduplicated by `utils.Unique`, mime type kept in
full, category from the dispatch). -/
def MagnifyCore (env : Env) (st : ServiceState) (contentHash : String) :
    Except Err (String × MetaData) × ServiceState :=
  match env.ExtractContents contentHash with
  | .error e => (.error (.extractFailed e), st)
  | .ok contents =>
    let contentType := env.DetectContentType contents
    match fieldsFuncHead ';' contentType with
    | none => (.error .panicIndexOutOfRange, st)
    | some p0 =>
      match Classify env st.ta contents p0 contentType with
      | (.error e, ta') => (.error e, { st with ta := ta' })
      | (.ok (category, meta), ta') =>
        (.ok (p0, ⟨uniqueList meta, contentType, category⟩),
         { st with ta := ta'.clear })

/-- Embeds `lens.Service.Magnify` (`lens.go`): fail with the already-indexed error
when the datastore has any record under the content hash, else run the
classification pipeline. -/
def Magnify (env : Env) (st : ServiceState) (contentHash : String) :
    Except Err (String × MetaData) × ServiceState :=
  if (st.kv contentHash).isSome then (.error .alreadyIndexed, st)
  else MagnifyCore env st contentHash

/-- Embeds `IndexOperationResponse` (`lens.go`). -/
structure IndexOperationResponse where
  ContentHash : String
  LensID : UUID
deriving DecidableEq, Repr

/-- One iteration of the keyword loop in `Store`: `Has`, then either create
the keyword record, or `Get`/unmarshal it, skip when the id is already
listed, else append the id and `Put` the record back. -/
def addKeyword (kv : KV) (id : UUID) (v : String) : Except Err KV :=
  match kv v with
  | none => .ok (kvPut kv v (.keyE ⟨v, [id]⟩))
  | some (.keyE kw) =>
    if id ∈ kw.LensIdentifiers then .ok kv
    else .ok (kvPut kv v (.keyE ⟨kw.Name, kw.LensIdentifiers ++ [id]⟩))
  | some _ => .error .unmarshalFailed

/-- The keyword loop of `Store` over `meta.Summary`; on failure the writes
already made are kept (no rollback). -/
def storeLoop (kv : KV) (id : UUID) : List String → Option Err × KV
  | [] => (none, kv)
  | v :: rest =>
    match addKeyword kv id v with
    | .error e => (some e, kv)
    | .ok kv1 => storeLoop kv1 id rest

/-- Embeds `lens.Service.Store` (`lens.go`): generate a fresh id, run the keyword
loop, then write the name record and the object record, then `DagPut` the
object into IPFS. -/
def Store (env : Env) (st : ServiceState) (meta : MetaData) (name : String) :
    Except Err IndexOperationResponse × ServiceState :=
  let id := genId st.ctr
  let obj : Object := ⟨id, name, meta⟩
  match storeLoop st.kv id meta.Summary with
  | (some e, kv1) => (.error e, { st with kv := kv1, ctr := st.ctr + 1 })
  | (none, kv1) =>
    let kv2 := kvPut kv1 name (.nameE id)
    let kv3 := kvPut kv2 id (.objE obj)
    match env.DagPut obj with
    | .error e => (.error (.dagPutFailed e), { st with kv := kv3, ctr := st.ctr + 1 })
    | .ok hash => (.ok ⟨hash, id⟩, { st with kv := kv3, ctr := st.ctr + 1 })

/-- Modelled from the spec: `RemoveFromKeyword` (§4.3), a read-modify-write
that filters the id out of the keyword record; a no-op when the record is
absent (the reindex-capable service is not part of the given sources). -/
def removeFromKeyword (kv : KV) (id : UUID) (k : String) : KV :=
  match kv k with
  | some (.keyE kw) => kvPut kv k (.keyE ⟨kw.Name, kw.LensIdentifiers.filter (fun x => x ≠ id)⟩)
  | _ => kv

/-- Modelled from the spec: the removal loop of `Update` over the stale keywords. -/
def removeLoop (kv : KV) (id : UUID) : List String → KV
  | [] => kv
  | v :: rest => removeLoop (removeFromKeyword kv id v) id rest

/-- Modelled from the spec: `lens.Service.Update` (§4.4 step 4, reindex):
load the existing object for its prior summary, diff the summaries,
`RemoveFromKeyword` every removed keyword, `AddToKeyword` every added one,
then fully replace the object (object record and name record), reusing the
existing id, and `DagPut` the new object.  A name record whose id has no
backing object is the spec's `InvalidReference`. -/
def Update (env : Env) (st : ServiceState) (meta : MetaData) (id : UUID) (name : String) :
    Except Err IndexOperationResponse × ServiceState :=
  match st.kv id with
  | some (.objE prior) =>
    let removed := prior.MetaData.Summary.filter (fun k => decide (k ∉ meta.Summary))
    let added := meta.Summary.filter (fun k => decide (k ∉ prior.MetaData.Summary))
    let kv1 := removeLoop st.kv id removed
    match storeLoop kv1 id added with
    | (some e, kv2) => (.error e, { st with kv := kv2 })
    | (none, kv2) =>
      let obj : Object := ⟨id, name, meta⟩
      let kv3 := kvPut kv2 name (.nameE id)
      let kv4 := kvPut kv3 id (.objE obj)
      match env.DagPut obj with
      | .error e => (.error (.dagPutFailed e), { st with kv := kv4 })
      | .ok hash => (.ok ⟨hash, id⟩, { st with kv := kv4 })
  | _ => (.error .invalidReference, st)

/-- Modelled from the spec: the reindex-capable two-argument `Magnify`
(§4.4 step 1) — with `reindex` the name record is required to exist (fail
with `NotFound` before fetching); without `reindex` it is exactly the
one-argument `Magnify` of `lens.go`. -/
def MagnifyReindex (env : Env) (st : ServiceState) (identifier : String) (reindex : Bool) :
    Except Err (String × MetaData) × ServiceState :=
  if reindex then
    if (st.kv identifier).isNone then (.error .notFound, st)
    else MagnifyCore env st identifier
  else Magnify env st identifier

/-- Embeds `pbresp.Index`: the response of the server's `Index` handler
(`Id: resp.LensID.String()`, `Keywords: metaData.Summary`). -/
structure IndexResp where
  id : UUID
  keywords : List String
deriving DecidableEq, Repr

/-- Modelled from the spec: `uuid.FromBytes` applied to the bytes stored
under the identifier; succeeds exactly on a name record (§6: the stored id
round-trips losslessly), fails on the JSON bytes of the other families. -/
def entryToId : Entry → Option UUID
  | .nameE id => some id
  | _ => none

/-- The server's `Index` handler (package `server`): accept only `"ipld"`
requests, run `Magnify`; without `reindex` call `Store`, with `reindex`
`Get` the stored id for the identifier, parse it, and call `Update`. -/
def IndexHandler (env : Env) (st : ServiceState) (reqType identifier : String)
    (reindex : Bool) : Except Err IndexResp × ServiceState :=
  if reqType = "ipld" then
    match MagnifyReindex env st identifier reindex with
    | (.error e, st1) => (.error e, st1)
    | (.ok (_, metaData), st1) =>
      if reindex = false then
        match Store env st1 metaData identifier with
        | (.error e, st2) => (.error e, st2)
        | (.ok resp, st2) => (.ok ⟨resp.LensID, metaData.Summary⟩, st2)
      else
        match st1.kv identifier with
        | none => (.error .notFound, st1)
        | some entry =>
          match entryToId entry with
          | none => (.error .invalidUUID, st1)
          | some id =>
            match Update env st1 metaData id identifier with
            | (.error e, st2) => (.error e, st2)
            | (.ok resp, st2) => (.ok ⟨resp.LensID, metaData.Summary⟩, st2)
  else (.error .invalidDataType, st)

/-- Embeds `pbresp.Object`: one record of the server's `Search` response.  The Go
slice holds pointers (`[]*pbresp.Object`), embedded as `Option RespObject`
with `none` for a nil pointer. -/
structure RespObject where
  Name : String
  MimeType : String
  Category : String
deriving DecidableEq, Repr

/-- The server's `Search` handler (package `server`): delegate to the
keyword-search primitive, then adapt the returned objects, exactly as the
source does: `make([]*pbresp.Object, len(objects))` followed by `append`
inside the loop. -/
def SearchHandler (env : Env) (st : ServiceState) (keywords : List String) :
    Except Err (List (Option RespObject)) :=
  match env.KeywordSearch st.kv keywords with
  | .error e => .error (.searchFailed e)
  | .ok objects =>
    .ok (List.replicate objects.length none ++
      objects.map (fun v => some ⟨v.Name, v.MetaData.MimeType, v.MetaData.Category⟩))

/-- A sequence of `Store` calls, in order. -/
def runStores (env : Env) : ServiceState → List (MetaData × String) → ServiceState
  | st, [] => st
  | st, (m, n) :: rest => runStores env (Store env st m n).2 rest

deriving instance DecidableEq for Except

/-- The record value `addKeyword` leaves under its own key on success. -/
def keyTarget (kv : KV) (id : UUID) (q : String) : Keyword :=
  match kv q with
  | some (.keyE kw) =>
    if id ∈ kw.LensIdentifiers then kw else ⟨kw.Name, kw.LensIdentifiers ++ [id]⟩
  | _ => ⟨q, [id]⟩

/-- Every keyword record stored in the datastore lists each id at most once. -/
def KwInv (kv : KV) : Prop :=
  ∀ q kw, kv q = some (.keyE kw) → kw.LensIdentifiers.Nodup

/-- After reconciliation, the record under `q` (if it is a keyword record at
all) does not list `id`. -/
def NoId (id : UUID) (q : String) (kv : KV) : Prop :=
  ∀ kw, kv q = some (.keyE kw) → id ∉ kw.LensIdentifiers

/-- A concrete oracle environment: fetch succeeds, content sniffs as text,
the summarizer yields the keyword `lighthouse`, IPFS accepts the object. -/
def envDoc : Env where
  ExtractContents := fun _ => .ok [104, 105]
  DetectContentType := fun _ => "text/plain; charset=utf-8"
  BytesToString := fun _ => "hello"
  PdfPlainText := fun _ => .ok "pdf body"
  ClassifyImage := fun _ => .ok "lighthouse"
  SummarizeKeywords := fun _ _ => ["lighthouse"]
  DagPut := fun _ => .ok "QmDagHash"
  KeywordSearch := fun _ _ => .ok []

/-- As `envDoc` but the content sniffs as a PDF summarizing to `whale`. -/
def envPdf : Env :=
  { envDoc with
    DetectContentType := fun _ => "application/pdf",
    SummarizeKeywords := fun _ _ => ["whale"] }

/-- As `envDoc` but the content sniffs as an image. -/
def envImg : Env := { envDoc with DetectContentType := fun _ => "image/png" }

/-- As `envDoc` but the content sniffs as an unsupported binary type. -/
def envBin : Env :=
  { envDoc with DetectContentType := fun _ => "application/octet-stream" }

/-- The one indexed object of the search scenario. -/
def objLighthouse : Object :=
  ⟨genId 0, "QmLight", ⟨["lighthouse"], "text/plain; charset=utf-8", "document"⟩⟩

/-- As `envDoc` but the keyword-search primitive matches `objLighthouse`
for the query `["lighthouse"]`. -/
def envSearch : Env :=
  { envDoc with
    KeywordSearch := fun _ ks =>
      if ks = ["lighthouse"] then .ok [objLighthouse] else .ok [] }

/-- Reconciliation scenario state: one object indexed under `QmDoc` with
summary `{a, b}` and both keyword records pointing at it. -/
def stC1 : ServiceState :=
  ⟨fun k =>
    if k = genId 0 then
      some (.objE ⟨genId 0, "QmDoc", ⟨["a", "b"], "text/plain", "document"⟩⟩)
    else if k = "a" then some (.keyE ⟨"a", [genId 0]⟩)
    else if k = "b" then some (.keyE ⟨"b", [genId 0]⟩)
    else none,
   ⟨[]⟩, 1⟩

/-- The new metadata of the reconciliation scenario: summary `{b, c}`. -/
def metaC1 : MetaData := ⟨["b", "c"], "text/plain; charset=utf-8", "document"⟩

/-- First store of the dedup scenario: summary `{ocean}`. -/
def metaOcean1 : MetaData := ⟨["ocean"], "text/plain; charset=utf-8", "document"⟩

/-- Second store of the dedup scenario: summary `{ocean, reef}`. -/
def metaOcean2 : MetaData := ⟨["ocean", "reef"], "text/plain; charset=utf-8", "document"⟩

/-- A state whose datastore already has a name record under `QmDup`. -/
def stDup : ServiceState :=
  ⟨fun k => if k = "QmDup" then some (.nameE (genId 0)) else none, ⟨[]⟩, 1⟩

/-- Reindex-scenario state: `QmDoc2` indexed with id `genId 0` and prior
summary `{a}`. -/
def stReindex : ServiceState :=
  ⟨fun k =>
    if k = "QmDoc2" then some (.nameE (genId 0))
    else if k = genId 0 then
      some (.objE ⟨genId 0, "QmDoc2", ⟨["a"], "text/plain", "document"⟩⟩)
    else none, ⟨[]⟩, 1⟩

/-- Failure-scenario state: the key `existing` already holds a name record,
so using it as a keyword makes the read-modify-write step fail. -/
def stClash : ServiceState :=
  ⟨fun k => if k = "existing" then some (.nameE (genId 5)) else none, ⟨[]⟩, 0⟩

/-- Metadata whose keyword collides with the `existing` name record. -/
def metaClash : MetaData := ⟨["existing"], "text/plain; charset=utf-8", "document"⟩

/-- Second metadata for the duplicate-name scenario. -/
def metaReef : MetaData := ⟨["reef"], "text/plain; charset=utf-8", "document"⟩

/-! ### Basic lemmas about the datastore and the loops -/

theorem kvPut_self (kv : KV) (k : String) (e : Entry) : kvPut kv k e k = some e := by
  simp [kvPut]

theorem kvPut_ne (kv : KV) (k : String) (e : Entry) {q : String} (h : q ≠ k) :
    kvPut kv k e q = kv q := by
  simp [kvPut, h]

theorem addKeyword_ne {kv : KV} {id : UUID} {v : String} {kv1 : KV}
    (h : addKeyword kv id v = .ok kv1) {q : String} (hq : q ≠ v) : kv1 q = kv q := by
  unfold addKeyword at h
  cases hkv : kv v with
  | none =>
    rw [hkv] at h
    cases h
    exact kvPut_ne _ _ _ hq
  | some e =>
    rw [hkv] at h
    cases e with
    | nameE i => cases h
    | objE o => cases h
    | keyE kw =>
      by_cases hm : id ∈ kw.LensIdentifiers
      · simp only [hm, if_pos, if_true] at h
        cases h; rfl
      · simp only [hm, if_neg, if_false, not_false_iff] at h
        cases h
        exact kvPut_ne _ _ _ hq

theorem storeLoop_ne (id : UUID) {q : String} :
    ∀ (l : List String) (kv : KV), q ∉ l → (storeLoop kv id l).2 q = kv q := by
  intro l
  induction l with
  | nil => intro kv _; rfl
  | cons v rest ih =>
    intro kv h
    have hqv : q ≠ v := fun he => h (he ▸ List.mem_cons_self v rest)
    have hqr : q ∉ rest := fun hm => h (List.mem_cons_of_mem _ hm)
    simp only [storeLoop]
    cases hak : addKeyword kv id v with
    | error e => rfl
    | ok kv1 => rw [ih kv1 hqr, addKeyword_ne hak hqv]

theorem addKeyword_skip {kv : KV} {id : UUID} {v : String} {kw : Keyword}
    (hkv : kv v = some (.keyE kw)) (hm : id ∈ kw.LensIdentifiers) :
    addKeyword kv id v = .ok kv := by
  unfold addKeyword
  rw [hkv]
  simp [hm]

theorem storeLoop_stable {id : UUID} {q : String} :
    ∀ (l : List String) (kv : KV) (kw : Keyword), kv q = some (.keyE kw) →
      id ∈ kw.LensIdentifiers → (storeLoop kv id l).2 q = kv q := by
  intro l
  induction l with
  | nil => intro kv kw _ _; rfl
  | cons v rest ih =>
    intro kv kw hkv hm
    simp only [storeLoop]
    cases hak : addKeyword kv id v with
    | error e => rfl
    | ok kv1 =>
      have h1 : kv1 q = kv q := by
        by_cases hqv : q = v
        · subst hqv
          rw [addKeyword_skip hkv hm] at hak
          cases hak; rfl
        · exact addKeyword_ne hak hqv
      rw [ih kv1 kw (h1 ▸ hkv) hm, h1]

theorem mem_keyTarget (kv : KV) (id : UUID) (q : String) :
    id ∈ (keyTarget kv id q).LensIdentifiers := by
  unfold keyTarget
  cases hkv : kv q with
  | none => simp
  | some e =>
    cases e with
    | nameE i => simp
    | objE o => simp
    | keyE kw =>
      by_cases hm : id ∈ kw.LensIdentifiers
      · simp [hm]
      · simp [hm]

theorem addKeyword_ok_self {kv : KV} {id : UUID} {v : String} {kv1 : KV}
    (h : addKeyword kv id v = .ok kv1) : kv1 v = some (.keyE (keyTarget kv id v)) := by
  unfold addKeyword at h
  unfold keyTarget
  cases hkv : kv v with
  | none =>
    rw [hkv] at h
    cases h
    simp [kvPut_self]
  | some e =>
    rw [hkv] at h
    cases e with
    | nameE i => cases h
    | objE o => cases h
    | keyE kw =>
      by_cases hm : id ∈ kw.LensIdentifiers
      · simp only [hm, if_true] at h ⊢
        cases h
        exact hkv
      · simp only [hm, if_false] at h ⊢
        cases h
        simp [kvPut_self, hm]

theorem storeLoop_ok_mem {id : UUID} {q : String} :
    ∀ (l : List String) (kv kv' : KV), storeLoop kv id l = (none, kv') → q ∈ l →
      kv' q = some (.keyE (keyTarget kv id q)) := by
  intro l
  induction l with
  | nil => intro kv kv' _ hq; cases hq
  | cons v rest ih =>
    intro kv kv' h hq
    simp only [storeLoop] at h
    cases hak : addKeyword kv id v with
    | error e => rw [hak] at h; cases h
    | ok kv1 =>
      rw [hak] at h
      by_cases hqv : q = v
      · subst hqv
        have h1 : kv1 q = some (.keyE (keyTarget kv id q)) := addKeyword_ok_self hak
        have h2 : (storeLoop kv1 id rest).2 q = kv1 q :=
          storeLoop_stable rest kv1 _ h1 (mem_keyTarget kv id q)
        have h3 : (storeLoop kv1 id rest).2 = kv' := congrArg Prod.snd h
        rw [← h3, h2, h1]
      · have hqr : q ∈ rest := by
          rcases List.mem_cons.mp hq with h' | h'
          · exact absurd h' hqv
          · exact h'
        have h4 : kv' q = some (.keyE (keyTarget kv1 id q)) := ih kv1 kv' h hqr
        have h5 : keyTarget kv1 id q = keyTarget kv id q := by
          unfold keyTarget
          rw [addKeyword_ne hak hqv]
        rw [h4, h5]

theorem storeLoop_keyE_mono (id id0 : UUID) {q : String} :
    ∀ (l : List String) (kv : KV) (kw : Keyword), kv q = some (.keyE kw) →
      id0 ∈ kw.LensIdentifiers →
      ∃ kw', (storeLoop kv id l).2 q = some (.keyE kw') ∧ id0 ∈ kw'.LensIdentifiers := by
  intro l
  induction l with
  | nil => intro kv kw hkv hm; exact ⟨kw, hkv, hm⟩
  | cons v rest ih =>
    intro kv kw hkv hm
    simp only [storeLoop]
    cases hak : addKeyword kv id v with
    | error e => exact ⟨kw, hkv, hm⟩
    | ok kv1 =>
      by_cases hqv : q = v
      · subst hqv
        have h1 : kv1 q = some (.keyE (keyTarget kv id q)) := addKeyword_ok_self hak
        have h2 : id0 ∈ (keyTarget kv id q).LensIdentifiers := by
          unfold keyTarget
          rw [hkv]
          by_cases hmem : id ∈ kw.LensIdentifiers
          · simpa [hmem]
          · simp only [hmem, if_false]
            exact List.mem_append_left _ hm
        exact ih kv1 _ h1 h2
      · exact ih kv1 kw ((addKeyword_ne hak hqv) ▸ hkv) hm

theorem genId_inj {a b : Nat} (h : genId a = genId b) : a = b := by
  unfold genId at h
  have h2 : List.replicate (a + 1) 'i' = List.replicate (b + 1) 'i' := by
    injection h
  have h3 := congrArg List.length h2
  simpa using h3

/-! ### The no-duplicates invariant (I4) -/

theorem KwInv_put_nameE {kv : KV} (h : KwInv kv) (k : String) (id : UUID) :
    KwInv (kvPut kv k (.nameE id)) := by
  intro q kw hq
  by_cases hqk : q = k
  · subst hqk; rw [kvPut_self] at hq; cases hq
  · rw [kvPut_ne _ _ _ hqk] at hq; exact h q kw hq

theorem KwInv_put_objE {kv : KV} (h : KwInv kv) (k : String) (o : Object) :
    KwInv (kvPut kv k (.objE o)) := by
  intro q kw hq
  by_cases hqk : q = k
  · subst hqk; rw [kvPut_self] at hq; cases hq
  · rw [kvPut_ne _ _ _ hqk] at hq; exact h q kw hq

theorem addKeyword_KwInv {kv : KV} {id : UUID} {v : String} {kv1 : KV}
    (h : KwInv kv) (hak : addKeyword kv id v = .ok kv1) : KwInv kv1 := by
  intro q kw hq
  by_cases hqv : q = v
  · subst hqv
    rw [addKeyword_ok_self hak] at hq
    cases hq
    unfold keyTarget
    cases hkv : kv q with
    | none => simp
    | some e =>
      cases e with
      | nameE i => simp
      | objE o => simp
      | keyE kw0 =>
        have hnd : kw0.LensIdentifiers.Nodup := h q kw0 hkv
        by_cases hm : id ∈ kw0.LensIdentifiers
        · simpa [hm] using hnd
        · simp only [hm, if_false]
          simp [List.nodup_append, hnd, hm]
  · rw [addKeyword_ne hak hqv] at hq
    exact h q kw hq

theorem storeLoop_KwInv (id : UUID) :
    ∀ (l : List String) (kv : KV), KwInv kv → KwInv (storeLoop kv id l).2 := by
  intro l
  induction l with
  | nil => intro kv h; exact h
  | cons v rest ih =>
    intro kv h
    simp only [storeLoop]
    cases hak : addKeyword kv id v with
    | error e => exact h
    | ok kv1 => exact ih kv1 (addKeyword_KwInv h hak)

theorem Store_KwInv {env : Env} {st : ServiceState} {meta : MetaData} {name : String}
    (h : KwInv st.kv) : KwInv ((Store env st meta name).2).kv := by
  have hkv1 := storeLoop_KwInv (genId st.ctr) meta.Summary st.kv h
  unfold Store
  dsimp only
  split
  next e kv1 hloop =>
    rw [hloop] at hkv1
    exact hkv1
  next kv1 hloop =>
    rw [hloop] at hkv1
    have h2 := KwInv_put_objE
      (KwInv_put_nameE hkv1 name (genId st.ctr)) (genId st.ctr)
      ⟨genId st.ctr, name, meta⟩
    split
    next e hdag => exact h2
    next hash hdag => exact h2

theorem runStores_KwInv {env : Env} :
    ∀ (reqs : List (MetaData × String)) (st : ServiceState),
      KwInv st.kv → KwInv ((runStores env st reqs).kv) := by
  intro reqs
  induction reqs with
  | nil => intro st h; exact h
  | cons r rest ih =>
    intro st h
    exact ih (Store env st r.1 r.2).2 (Store_KwInv h)

/-! ### Removal-loop lemmas (reindex reconciliation) -/

theorem removeFromKeyword_ne {kv : KV} {id : UUID} {k : String} {q : String} (h : q ≠ k) :
    removeFromKeyword kv id k q = kv q := by
  unfold removeFromKeyword
  cases hkv : kv k with
  | none => rfl
  | some e =>
    cases e with
    | nameE i => rfl
    | objE o => rfl
    | keyE kw => exact kvPut_ne _ _ _ h

theorem removeLoop_ne (id : UUID) {q : String} :
    ∀ (l : List String) (kv : KV), q ∉ l → removeLoop kv id l q = kv q := by
  intro l
  induction l with
  | nil => intro kv _; rfl
  | cons v rest ih =>
    intro kv h
    have hqv : q ≠ v := fun he => h (he ▸ List.mem_cons_self v rest)
    have hqr : q ∉ rest := fun hm => h (List.mem_cons_of_mem _ hm)
    simp only [removeLoop]
    rw [ih _ hqr, removeFromKeyword_ne hqv]

theorem removeFromKeyword_self (kv : KV) (id : UUID) (q : String) :
    NoId id q (removeFromKeyword kv id q) := by
  intro kw h
  unfold removeFromKeyword at h
  cases hkv : kv q with
  | none => rw [hkv] at h; dsimp only at h; rw [hkv] at h; cases h
  | some e =>
    cases e with
    | nameE i => rw [hkv] at h; dsimp only at h; rw [hkv] at h; cases h
    | objE o => rw [hkv] at h; dsimp only at h; rw [hkv] at h; cases h
    | keyE kw0 =>
      rw [hkv] at h
      dsimp only at h
      rw [kvPut_self] at h
      cases h
      simp

theorem removeLoop_mem {id : UUID} {q : String} :
    ∀ (l : List String) (kv : KV), q ∈ l → NoId id q (removeLoop kv id l) := by
  intro l
  induction l with
  | nil => intro kv hq; cases hq
  | cons v rest ih =>
    intro kv hq
    simp only [removeLoop]
    by_cases hqr : q ∈ rest
    · exact ih _ hqr
    · have hqv : q = v := by
        rcases List.mem_cons.mp hq with h' | h'
        · exact h'
        · exact absurd h' hqr
      subst hqv
      intro kw h
      rw [removeLoop_ne id rest _ hqr] at h
      exact removeFromKeyword_self kv id q kw h

/-! ### Success characterizations of Store and Update -/

theorem store_ok {env : Env} {st : ServiceState} {meta : MetaData} {name : String}
    {r : IndexOperationResponse} {st' : ServiceState}
    (h : Store env st meta name = (.ok r, st')) :
    ∃ kv1 hash, storeLoop st.kv (genId st.ctr) meta.Summary = (none, kv1) ∧
      env.DagPut ⟨genId st.ctr, name, meta⟩ = .ok hash ∧
      r = ⟨hash, genId st.ctr⟩ ∧
      st' = { st with
        kv := kvPut (kvPut kv1 name (.nameE (genId st.ctr))) (genId st.ctr)
          (.objE ⟨genId st.ctr, name, meta⟩),
        ctr := st.ctr + 1 } := by
  unfold Store at h
  dsimp only at h
  split at h
  next e kv1 hloop => exact absurd h (by simp)
  next kv1 hloop =>
    split at h
    next e hdag => exact absurd h (by simp)
    next hash hdag =>
      injection h with h1 h2
      injection h1 with h1
      exact ⟨kv1, hash, hloop, hdag, h1.symm, h2.symm⟩

theorem store_err {env : Env} {st : ServiceState} {meta : MetaData} {name : String}
    {e : Err} {kv1 : KV}
    (hloop : storeLoop st.kv (genId st.ctr) meta.Summary = (some e, kv1)) :
    Store env st meta name = (.error e, { st with kv := kv1, ctr := st.ctr + 1 }) := by
  unfold Store
  dsimp only
  rw [hloop]

theorem update_ok {env : Env} {st : ServiceState} {meta : MetaData} {id : UUID}
    {name : String} {r : IndexOperationResponse} {st' : ServiceState}
    (h : Update env st meta id name = (.ok r, st')) :
    ∃ prior kv2 hash, st.kv id = some (.objE prior) ∧
      storeLoop
        (removeLoop st.kv id
          (prior.MetaData.Summary.filter (fun k => decide (k ∉ meta.Summary)))) id
        (meta.Summary.filter (fun k => decide (k ∉ prior.MetaData.Summary))) = (none, kv2) ∧
      env.DagPut ⟨id, name, meta⟩ = .ok hash ∧ r = ⟨hash, id⟩ ∧
      st' = { st with kv := kvPut (kvPut kv2 name (.nameE id)) id (.objE ⟨id, name, meta⟩) } := by
  unfold Update at h
  split at h
  next prior hobj =>
    dsimp only at h
    split at h
    next e kv2 hloop => exact absurd h (by simp)
    next kv2 hloop =>
      split at h
      next e hdag => exact absurd h (by simp)
      next hash hdag =>
        injection h with h1 h2
        injection h1 with h1
        exact ⟨prior, kv2, hash, hobj, hloop, hdag, h1.symm, h2.symm⟩
  next hne => exact absurd h (by simp)

/-! ### State preservation through the classification pipeline -/

theorem MagnifyCore_state (env : Env) (st : ServiceState) (h : String) :
    ((MagnifyCore env st h).2).kv = st.kv ∧ ((MagnifyCore env st h).2).ctr = st.ctr := by
  unfold MagnifyCore
  dsimp only
  split
  · exact ⟨rfl, rfl⟩
  · split
    · exact ⟨rfl, rfl⟩
    · split
      · exact ⟨rfl, rfl⟩
      · exact ⟨rfl, rfl⟩

theorem Classify_ne_already (env : Env) (ta : Analyzer) (c : Bytes) (p0 ct : String) :
    (Classify env ta c p0 ct).1 ≠ .error .alreadyIndexed := by
  unfold Classify
  split
  · split
    · intro h; cases h
    · intro h; cases h
  · split
    · intro h; cases h
    · split
      · intro h; cases h
      · split
        · split
          · intro h; cases h
          · intro h; cases h
        · intro h; cases h

theorem MagnifyCore_ne_already (env : Env) (st : ServiceState) (n : String) :
    (MagnifyCore env st n).1 ≠ .error .alreadyIndexed := by
  unfold MagnifyCore
  dsimp only
  split
  · intro h; cases h
  · split
    · intro h; cases h
    · split
      next e ta' heq =>
        intro h
        injection h with h1
        subst h1
        exact Classify_ne_already _ _ _ _ _ (by rw [heq])
      · intro h; cases h

theorem Magnify_guard {st : ServiceState} {name : String}
    (h : (st.kv name).isSome = true) (env : Env) :
    Magnify env st name = (.error .alreadyIndexed, st) := by
  unfold Magnify
  rw [if_pos h]

theorem IndexHandler_already {env : Env} {st : ServiceState} {name : String}
    (h : (st.kv name).isSome = true) :
    IndexHandler env st "ipld" name false = (.error .alreadyIndexed, st) := by
  unfold IndexHandler MagnifyReindex
  rw [if_pos rfl]
  simp only [Bool.false_eq_true, if_false]
  rw [Magnify_guard h env]

theorem Classify_error_ta {env : Env} {ta : Analyzer} {c : Bytes} {p0 ct : String}
    {e : Err} {ta' : Analyzer} (h : Classify env ta c p0 ct = (.error e, ta')) :
    ta' = ta := by
  unfold Classify at h
  split at h
  · split at h
    · injection h with h1 h2; exact h2.symm
    · cases h
  · split at h
    · injection h with h1 h2; exact h2.symm
    · split at h
      · cases h
      · split at h
        · split at h
          · injection h with h1 h2; exact h2.symm
          · cases h
        · injection h with h1 h2; exact h2.symm

theorem Magnify_state_pure (env : Env) (st : ServiceState) (n : String)
    (h : st.ta.corpus = []) : (Magnify env st n).2 = st := by
  obtain ⟨kv0, ⟨corpus0⟩, ctr0⟩ := st
  simp only at h
  subst h
  unfold Magnify
  split
  · rfl
  · unfold MagnifyCore
    dsimp only
    split
    · rfl
    · split
      · rfl
      · split
        next e ta' heq =>
          have := Classify_error_ta heq
          rw [this]
        next p q ta' heq =>
          rfl

/-- C7: for every input whose detected MIME type is neither
`application/pdf`, `text/*`, nor `image/*`, the index call fails with the
unsupported-content-type error and the service state — datastore included —
is exactly what it was before the call (no key-value store write occurs). -/
theorem unsupported_type_no_store_write
    (env : Env) (st : ServiceState) (name : String) (c : Bytes) (p0 p2 : String)
    (h0 : st.kv name = none)
    (hfetch : env.ExtractContents name = .ok c)
    (hp0 : fieldsFuncHead ';' (env.DetectContentType c) = some p0)
    (hpdf : p0 ≠ "application/pdf")
    (hp2 : fieldsFuncHead '/' (env.DetectContentType c) = some p2)
    (ht : p2 ≠ "text") (hi : p2 ≠ "image") :
    IndexHandler env st "ipld" name false = (.error .unsupportedContentType, st) := by
  have hcl : Classify env st.ta c p0 (env.DetectContentType c) =
      (.error .unsupportedContentType, st.ta) := by
    unfold Classify
    rw [if_neg hpdf, hp2]
    dsimp only
    rw [if_neg ht, if_neg hi]
  have hcore : MagnifyCore env st name = (.error .unsupportedContentType, st) := by
    unfold MagnifyCore
    rw [hfetch]
    dsimp only
    rw [hp0]
    dsimp only
    rw [hcl]
  unfold IndexHandler MagnifyReindex
  rw [if_pos rfl]
  simp only [Bool.false_eq_true, if_false]
  unfold Magnify
  rw [h0]
  simp only [Option.isSome_none, Bool.false_eq_true, if_false]
  rw [hcore]

/-- C8: after every classification call — success or failure — the text
summarizer's working corpus is empty again (on success `Clear()` ran; on
failure nothing was added to it), so the result of any second
classification is independent of the content the first one processed. -/
theorem analyzer_cleared_between_calls
    (env : Env) (st : ServiceState) (n1 : String) (h : st.ta.corpus = []) :
    ((Magnify env st n1).2).ta.corpus = [] ∧
    ∀ (env2 : Env) (n2 : String),
      Magnify env2 ((Magnify env st n1).2) n2 = Magnify env2 st n2 := by
  have hp := Magnify_state_pure env st n1 h
  constructor
  · rw [hp]
    exact h
  · intro env2 n2
    rw [hp]

/-- C5: classification dispatches on the sniffed MIME type:
`application/pdf` extracts the PDF text and summarizes it at ratio 0.25
under category `pdf`; `text/*` summarizes the raw text at ratio 0.25 under
category `document`; `image/*` takes the image classifier's single keyword
under category `image`. -/
theorem classification_dispatch :
    (∀ (env : Env) (st : ServiceState) (h : String) (c : Bytes) (text : String),
      env.ExtractContents h = .ok c →
      fieldsFuncHead ';' (env.DetectContentType c) = some "application/pdf" →
      env.PdfPlainText c = .ok text →
      MagnifyCore env st h =
        (.ok ("application/pdf",
          ⟨uniqueList (env.SummarizeKeywords (st.ta.corpus ++ [text]) (0.25 : ℚ)),
           env.DetectContentType c, "pdf"⟩),
         { st with ta := ⟨[]⟩ }))
    ∧ (∀ (env : Env) (st : ServiceState) (h : String) (c : Bytes) (p0 : String),
      env.ExtractContents h = .ok c →
      fieldsFuncHead ';' (env.DetectContentType c) = some p0 →
      p0 ≠ "application/pdf" →
      fieldsFuncHead '/' (env.DetectContentType c) = some "text" →
      MagnifyCore env st h =
        (.ok (p0,
          ⟨uniqueList (env.SummarizeKeywords (st.ta.corpus ++ [env.BytesToString c]) (0.25 : ℚ)),
           env.DetectContentType c, "document"⟩),
         { st with ta := ⟨[]⟩ }))
    ∧ (∀ (env : Env) (st : ServiceState) (h : String) (c : Bytes) (p0 kw : String),
      env.ExtractContents h = .ok c →
      fieldsFuncHead ';' (env.DetectContentType c) = some p0 →
      p0 ≠ "application/pdf" →
      fieldsFuncHead '/' (env.DetectContentType c) = some "image" →
      env.ClassifyImage c = .ok kw →
      MagnifyCore env st h =
        (.ok (p0, ⟨[kw], env.DetectContentType c, "image"⟩), { st with ta := ⟨[]⟩ })) := by
  refine ⟨?_, ?_, ?_⟩
  · intro env st h c text hfetch hp0 hpdf
    have hcl : Classify env st.ta c "application/pdf" (env.DetectContentType c) =
        (.ok ("pdf", env.SummarizeKeywords (st.ta.corpus ++ [text]) (0.25 : ℚ)),
         ⟨st.ta.corpus ++ [text]⟩) := by
      unfold Classify
      rw [if_pos rfl, hpdf]
      rfl
    unfold MagnifyCore
    rw [hfetch]
    dsimp only
    rw [hp0]
    dsimp only
    rw [hcl]
    rfl
  · intro env st h c p0 hfetch hp0 hpdf hp2
    have hcl : Classify env st.ta c p0 (env.DetectContentType c) =
        (.ok ("document",
          env.SummarizeKeywords (st.ta.corpus ++ [env.BytesToString c]) (0.25 : ℚ)),
         ⟨st.ta.corpus ++ [env.BytesToString c]⟩) := by
      unfold Classify
      rw [if_neg hpdf, hp2]
      dsimp only
      rw [if_pos rfl]
      rfl
    unfold MagnifyCore
    rw [hfetch]
    dsimp only
    rw [hp0]
    dsimp only
    rw [hcl]
    rfl
  · intro env st h c p0 kw hfetch hp0 hpdf hp2 hcls
    have hcl : Classify env st.ta c p0 (env.DetectContentType c) =
        (.ok ("image", [kw]), st.ta) := by
      unfold Classify
      rw [if_neg hpdf, hp2]
      dsimp only
      rw [if_neg (by decide : ¬ ("image" : String) = "text"), if_pos rfl, hcls]
    unfold MagnifyCore
    rw [hfetch]
    dsimp only
    rw [hp0]
    dsimp only
    rw [hcl]
    rfl

theorem store_name_isSome {env : Env} {st : ServiceState} {meta : MetaData}
    {name : String} {r : IndexOperationResponse} {st' : ServiceState}
    (h : Store env st meta name = (.ok r, st')) : (st'.kv name).isSome = true := by
  obtain ⟨kv1, hash, hloop, hdag, hr, hst⟩ := store_ok h
  subst hst
  dsimp only
  by_cases hne : name = genId st.ctr
  · rw [hne, kvPut_self]
    rfl
  · rw [kvPut_ne _ _ _ hne, kvPut_self]
    rfl

/-- C3: a non-reindex index call on an identifier that already has a record
in the datastore fails with the already-indexed error before any fetch or
classification (the result does not depend on the collaborator oracles and
the state is untouched); and once a first index of a never-seen identifier
succeeds, any second non-reindex call on it fails with the already-indexed
error. -/
theorem already_indexed_idempotency :
    (∀ (env : Env) (st : ServiceState) (name : String),
      (st.kv name).isSome = true →
      IndexHandler env st "ipld" name false = (.error .alreadyIndexed, st))
    ∧ (∀ (env : Env) (st : ServiceState) (name : String) (resp : IndexResp)
        (st' : ServiceState),
        st.kv name = none →
        IndexHandler env st "ipld" name false = (.ok resp, st') →
        ∀ (env2 : Env),
          IndexHandler env2 st' "ipld" name false = (.error .alreadyIndexed, st')) := by
  constructor
  · intro env st name h
    exact IndexHandler_already h
  · intro env st name resp st' h0 hrun env2
    apply IndexHandler_already
    unfold IndexHandler MagnifyReindex at hrun
    rw [if_pos rfl] at hrun
    simp only [Bool.false_eq_true, if_false] at hrun
    unfold Magnify at hrun
    rw [h0] at hrun
    simp only [Option.isSome_none, Bool.false_eq_true, if_false] at hrun
    split at hrun
    next e st1 heq => exact absurd hrun (by simp)
    next p metaData st1 heq =>
      simp only [if_true] at hrun
      split at hrun
      next e st2 hst => exact absurd hrun (by simp)
      next resp2 st2 hst =>
        injection hrun with h1 h2
        subst h2
        exact store_name_isSome hst

/-- C2: after any sequence of `Store` calls starting from the empty
datastore, every stored keyword record lists each object id at most once;
in particular two stores whose summaries both contain `"ocean"` leave the
`"ocean"` record holding exactly the two distinct generated ids, once
each. -/
theorem keyword_records_no_duplicates :
    (∀ (env : Env) (reqs : List (MetaData × String)),
      KwInv ((runStores env initialState reqs).kv))
    ∧ (∀ (env : Env) (meta1 meta2 : MetaData) (r1 r2 : IndexOperationResponse)
        (st1 st2 : ServiceState),
        "ocean" ∈ meta1.Summary → "ocean" ∈ meta2.Summary →
        Store env initialState meta1 "QmFirst" = (.ok r1, st1) →
        Store env st1 meta2 "QmSecond" = (.ok r2, st2) →
        st2.kv "ocean" = some (.keyE ⟨"ocean", [genId 0, genId 1]⟩) ∧
        genId 0 ≠ genId 1) := by
  constructor
  · intro env reqs
    exact runStores_KwInv reqs initialState (fun q kw h => nomatch h)
  · intro env meta1 meta2 r1 r2 st1 st2 hm1 hm2 h1 h2
    obtain ⟨kv1, hash1, hloop1, hdag1, hr1, hst1⟩ := store_ok h1
    subst hst1
    obtain ⟨kv2, hash2, hloop2, hdag2, hr2, hst2⟩ := store_ok h2
    subst hst2
    dsimp only at hloop2 ⊢
    have ho1 : kv1 "ocean" =
        some (.keyE (keyTarget initialState.kv (genId initialState.ctr) "ocean")) :=
      storeLoop_ok_mem _ initialState.kv kv1 hloop1 hm1
    have ho1' : kv1 "ocean" = some (.keyE ⟨"ocean", [genId 0]⟩) := by
      rw [ho1]
      rfl
    have hs1 : kvPut (kvPut kv1 "QmFirst" (.nameE (genId initialState.ctr)))
        (genId initialState.ctr)
        (.objE ⟨genId initialState.ctr, "QmFirst", meta1⟩) "ocean" =
        some (.keyE ⟨"ocean", [genId 0]⟩) := by
      rw [kvPut_ne _ _ _ (by decide : ("ocean" : String) ≠ genId initialState.ctr),
        kvPut_ne _ _ _ (by decide : ("ocean" : String) ≠ "QmFirst"), ho1']
    have ho2 : kv2 "ocean" =
        some (.keyE (keyTarget
          (kvPut (kvPut kv1 "QmFirst" (.nameE (genId initialState.ctr)))
            (genId initialState.ctr)
            (.objE ⟨genId initialState.ctr, "QmFirst", meta1⟩))
          (genId (initialState.ctr + 1)) "ocean")) :=
      storeLoop_ok_mem _ _ kv2 hloop2 hm2
    have hoT : keyTarget
        (kvPut (kvPut kv1 "QmFirst" (.nameE (genId initialState.ctr)))
          (genId initialState.ctr)
          (.objE ⟨genId initialState.ctr, "QmFirst", meta1⟩))
        (genId (initialState.ctr + 1)) "ocean" = ⟨"ocean", [genId 0, genId 1]⟩ := by
      unfold keyTarget
      rw [hs1]
      dsimp only
      rw [if_neg (by decide : ¬ genId (initialState.ctr + 1) ∈ [genId 0])]
      rfl
    refine ⟨?_, by decide⟩
    rw [kvPut_ne _ _ _ (by decide : ("ocean" : String) ≠ genId (initialState.ctr + 1)),
      kvPut_ne _ _ _ (by decide : ("ocean" : String) ≠ "QmSecond"), ho2, hoT]

/-- C9: the name record and the object record are written only after the
whole keyword loop has succeeded: when `Store` fails inside a keyword
read-modify-write step it returns that error with only the partial keyword
writes applied, the datastore still holds nothing under the name, and a
subsequent index attempt for the same name is not rejected by the
already-indexed guard. -/
theorem store_failure_leaves_name_unwritten
    (env : Env) (st : ServiceState) (meta : MetaData) (name : String) (e : Err) (kv1 : KV)
    (h0 : st.kv name = none)
    (hnm : name ∉ meta.Summary)
    (hloop : storeLoop st.kv (genId st.ctr) meta.Summary = (some e, kv1)) :
    Store env st meta name = (.error e, { st with kv := kv1, ctr := st.ctr + 1 }) ∧
    kv1 name = none ∧
    ∀ (env2 : Env),
      (Magnify env2 { st with kv := kv1, ctr := st.ctr + 1 } name).1 ≠
        .error .alreadyIndexed := by
  have hname : kv1 name = none := by
    have h := storeLoop_ne (genId st.ctr) meta.Summary st.kv hnm
    rw [hloop] at h
    dsimp only at h
    rw [h, h0]
  refine ⟨store_err hloop, hname, ?_⟩
  intro env2
  unfold Magnify
  dsimp only
  rw [hname]
  simp only [Option.isSome_none, Bool.false_eq_true, if_false]
  exact MagnifyCore_ne_already env2 _ name

/-- C10: `Store` performs no existence check on the name and draws a fresh
id on every invocation: two successful `Store` calls with the same name
both go through; afterwards the name record maps to the second call's id
while the first call's object record and its keyword-record memberships
remain in the datastore.  Uniqueness of objects per name is therefore
enforced only by the guard in `Magnify`, not by `Store`. -/
theorem store_has_no_name_guard
    (env : Env) (st : ServiceState) (meta1 meta2 : MetaData) (name : String)
    (r1 r2 : IndexOperationResponse) (st1 st2 : ServiceState)
    (h1 : Store env st meta1 name = (.ok r1, st1))
    (h2 : Store env st1 meta2 name = (.ok r2, st2))
    (hn1 : name ∉ meta1.Summary)
    (hg1 : genId st.ctr ∉ meta1.Summary)
    (hg2 : genId (st.ctr + 1) ∉ meta1.Summary)
    (hg3 : genId st.ctr ∉ meta2.Summary)
    (hne1 : name ≠ genId st.ctr)
    (hne2 : name ≠ genId (st.ctr + 1)) :
    genId st.ctr ≠ genId (st.ctr + 1) ∧
    st1.kv name = some (.nameE (genId st.ctr)) ∧
    st2.kv name = some (.nameE (genId (st.ctr + 1))) ∧
    st2.kv (genId st.ctr) = some (.objE ⟨genId st.ctr, name, meta1⟩) ∧
    ∀ k ∈ meta1.Summary, ∃ kw, st2.kv k = some (.keyE kw) ∧
      genId st.ctr ∈ kw.LensIdentifiers := by
  obtain ⟨kv1, hash1, hloop1, hdag1, hr1, hst1⟩ := store_ok h1
  subst hst1
  obtain ⟨kv2, hash2, hloop2, hdag2, hr2, hst2⟩ := store_ok h2
  subst hst2
  dsimp only at hloop2 ⊢
  have hdiff : genId st.ctr ≠ genId (st.ctr + 1) := by
    intro h
    have := genId_inj h
    omega
  refine ⟨hdiff, ?_, ?_, ?_, ?_⟩
  · rw [kvPut_ne _ _ _ hne1, kvPut_self]
  · rw [kvPut_ne _ _ _ hne2, kvPut_self]
  · have hkv2 := storeLoop_ne (genId (st.ctr + 1)) meta2.Summary
      (kvPut (kvPut kv1 name (.nameE (genId st.ctr))) (genId st.ctr)
        (.objE ⟨genId st.ctr, name, meta1⟩)) hg3
    rw [hloop2] at hkv2
    dsimp only at hkv2
    rw [kvPut_ne _ _ _ hdiff, kvPut_ne _ _ _ (Ne.symm hne1), hkv2, kvPut_self]
  · intro k hk
    have hk1 : kv1 k = some (.keyE (keyTarget st.kv (genId st.ctr) k)) :=
      storeLoop_ok_mem _ _ _ hloop1 hk
    have hkne_name : k ≠ name := fun h => hn1 (h ▸ hk)
    have hkne_id1 : k ≠ genId st.ctr := fun h => hg1 (h ▸ hk)
    have hkne_id2 : k ≠ genId (st.ctr + 1) := fun h => hg2 (h ▸ hk)
    have hs1 : kvPut (kvPut kv1 name (.nameE (genId st.ctr))) (genId st.ctr)
        (.objE ⟨genId st.ctr, name, meta1⟩) k =
        some (.keyE (keyTarget st.kv (genId st.ctr) k)) := by
      rw [kvPut_ne _ _ _ hkne_id1, kvPut_ne _ _ _ hkne_name, hk1]
    obtain ⟨kw', hkw', hmem⟩ :=
      storeLoop_keyE_mono (genId (st.ctr + 1)) (genId st.ctr) meta2.Summary
        (kvPut (kvPut kv1 name (.nameE (genId st.ctr))) (genId st.ctr)
          (.objE ⟨genId st.ctr, name, meta1⟩))
        (keyTarget st.kv (genId st.ctr) k)
        hs1 (mem_keyTarget st.kv (genId st.ctr) k)
    rw [hloop2] at hkw'
    dsimp only at hkw'
    refine ⟨kw', ?_, hmem⟩
    rw [kvPut_ne _ _ _ hkne_id2, kvPut_ne _ _ _ hkne_name, hkw']

/-- C1: reindexing an object reconciles its keyword records: after a
successful `Update`, every keyword of the prior summary that is not in the
new summary no longer lists the object's id, while every keyword of the new
summary lists it. -/
theorem reindex_reconciliation
    (env : Env) (st : ServiceState) (id : UUID) (name : String) (obj : Object)
    (meta : MetaData) (r : IndexOperationResponse) (st' : ServiceState)
    (hobj : st.kv id = some (.objE obj))
    (hI2 : ∀ k ∈ obj.MetaData.Summary, ∃ kw, st.kv k = some (.keyE kw) ∧
      id ∈ kw.LensIdentifiers)
    (hn1 : name ∉ obj.MetaData.Summary) (hn2 : name ∉ meta.Summary)
    (hi1 : id ∉ obj.MetaData.Summary) (hi2 : id ∉ meta.Summary)
    (hrun : Update env st meta id name = (.ok r, st')) :
    (∀ k ∈ obj.MetaData.Summary, k ∉ meta.Summary →
      ∀ kw, st'.kv k = some (.keyE kw) → id ∉ kw.LensIdentifiers) ∧
    (∀ k ∈ meta.Summary, ∃ kw, st'.kv k = some (.keyE kw) ∧
      id ∈ kw.LensIdentifiers) := by
  obtain ⟨prior, kv2, hash, hobj', hloop, hdag, hr, hst⟩ := update_ok hrun
  have hpo : obj = prior := by
    rw [hobj] at hobj'
    injection hobj' with h
    injection h with h
  subst hpo
  subst hst
  dsimp only
  constructor
  · intro k hk hkn kw hkv
    have hkid : k ≠ id := fun h => hi1 (h ▸ hk)
    have hkname : k ≠ name := fun h => hn1 (h ▸ hk)
    rw [kvPut_ne _ _ _ hkid, kvPut_ne _ _ _ hkname] at hkv
    have hkrem : k ∈ obj.MetaData.Summary.filter (fun k => decide (k ∉ meta.Summary)) :=
      List.mem_filter.mpr ⟨hk, decide_eq_true hkn⟩
    have hknadd : k ∉ meta.Summary.filter (fun k => decide (k ∉ obj.MetaData.Summary)) :=
      fun hmem => hkn (List.mem_filter.mp hmem).1
    have hstay := storeLoop_ne id
      (meta.Summary.filter (fun k => decide (k ∉ obj.MetaData.Summary)))
      (removeLoop st.kv id
        (obj.MetaData.Summary.filter (fun k => decide (k ∉ meta.Summary)))) hknadd
    rw [hloop] at hstay
    dsimp only at hstay
    rw [hstay] at hkv
    exact removeLoop_mem _ st.kv hkrem kw hkv
  · intro k hk
    have hkid : k ≠ id := fun h => hi2 (h ▸ hk)
    have hkname : k ≠ name := fun h => hn2 (h ▸ hk)
    by_cases hkp : k ∈ obj.MetaData.Summary
    · have hnr : k ∉ obj.MetaData.Summary.filter (fun k => decide (k ∉ meta.Summary)) :=
        fun hmem => (of_decide_eq_true (List.mem_filter.mp hmem).2) hk
      have hna : k ∉ meta.Summary.filter (fun k => decide (k ∉ obj.MetaData.Summary)) :=
        fun hmem => (of_decide_eq_true (List.mem_filter.mp hmem).2) hkp
      have h5 : removeLoop st.kv id
          (obj.MetaData.Summary.filter (fun k => decide (k ∉ meta.Summary))) k = st.kv k :=
        removeLoop_ne id _ st.kv hnr
      have hstay := storeLoop_ne id
        (meta.Summary.filter (fun k => decide (k ∉ obj.MetaData.Summary)))
        (removeLoop st.kv id
          (obj.MetaData.Summary.filter (fun k => decide (k ∉ meta.Summary)))) hna
      rw [hloop] at hstay
      dsimp only at hstay
      obtain ⟨kw, hkw, hmem⟩ := hI2 k hkp
      refine ⟨kw, ?_, hmem⟩
      rw [kvPut_ne _ _ _ hkid, kvPut_ne _ _ _ hkname, hstay, h5, hkw]
    · have hka : k ∈ meta.Summary.filter (fun k => decide (k ∉ obj.MetaData.Summary)) :=
        List.mem_filter.mpr ⟨hk, decide_eq_true hkp⟩
      have h6 := storeLoop_ok_mem _
        (removeLoop st.kv id
          (obj.MetaData.Summary.filter (fun k => decide (k ∉ meta.Summary)))) kv2 hloop hka
      refine ⟨keyTarget (removeLoop st.kv id
        (obj.MetaData.Summary.filter (fun k => decide (k ∉ meta.Summary)))) id k, ?_,
        mem_keyTarget _ _ _⟩
      rw [kvPut_ne _ _ _ hkid, kvPut_ne _ _ _ hkname, h6]

/-- C4: with `reindex` set, an identifier that was never indexed fails with
`NotFound` (for every oracle environment and with the state untouched, so
before any fetch); conversely, when a name record exists, a successful
reindex reuses the stored id — the response carries that id — and does not
generate a fresh one: the uuid-supply counter is unchanged. -/
theorem reindex_requires_existing_and_reuses_id :
    (∀ (env : Env) (st : ServiceState) (identifier : String),
      st.kv identifier = none →
      IndexHandler env st "ipld" identifier true = (.error .notFound, st))
    ∧ (∀ (env : Env) (st : ServiceState) (identifier : String) (id : UUID)
        (resp : IndexResp) (st' : ServiceState),
        st.kv identifier = some (.nameE id) →
        IndexHandler env st "ipld" identifier true = (.ok resp, st') →
        resp.id = id ∧ st'.ctr = st.ctr) := by
  constructor
  · intro env st identifier h0
    unfold IndexHandler MagnifyReindex
    rw [if_pos rfl, h0]
    simp only [Option.isNone_none, eq_self_iff_true, if_true]
  · intro env st identifier id resp st' hname hrun
    unfold IndexHandler MagnifyReindex at hrun
    rw [if_pos rfl, hname] at hrun
    simp only [Option.isNone_some, eq_self_iff_true, if_true,
      Bool.false_eq_true, if_false] at hrun
    have hs := (MagnifyCore_state env st identifier).1
    have hc := (MagnifyCore_state env st identifier).2
    split at hrun
    next e st1 heq => exact absurd hrun (by simp)
    next p metaData st1 heq =>
      rw [heq] at hs hc
      dsimp only at hs hc
      simp only [Bool.true_eq_false, if_false] at hrun
      rw [hs, hname] at hrun
      dsimp only [entryToId] at hrun
      split at hrun
      next e st2 hupd => exact absurd hrun (by simp)
      next resp2 st2 hupd =>
        obtain ⟨prior, kv2, hash, hobj', hloop, hdag, hr2, hst2⟩ := update_ok hupd
        injection hrun with h1 h2
        injection h1 with h1
        subst h2
        constructor
        · rw [← h1, hr2]
        · rw [hst2]
          dsimp only
          exact hc

/-- C6: the `Search` handler for a single matching object.  The source
preallocates `len(objects)` nil records with `make` and then appends the
adapted records, so the response is the adapted `(name, mimeType,
category)` record prefixed by a nil record — not exactly the adapted
records alone. -/
theorem search_response_has_nil_prefix :
    SearchHandler envSearch initialState ["lighthouse"] =
      .ok [none, some ⟨"QmLight", "text/plain; charset=utf-8", "document"⟩] ∧
    (.ok [none, some ⟨"QmLight", "text/plain; charset=utf-8", "document"⟩] :
        Except Err (List (Option RespObject))) ≠
      .ok [some ⟨"QmLight", "text/plain; charset=utf-8", "document"⟩] := by
  constructor
  · rfl
  · decide

theorem reindex_reconciliation_witness :
    genId 0 ∉ (Keyword.mk "a" []).LensIdentifiers := by
  have h := reindex_reconciliation envDoc stC1 (genId 0) "QmDoc"
    ⟨genId 0, "QmDoc", ⟨["a", "b"], "text/plain", "document"⟩⟩ metaC1
    ⟨"QmDagHash", genId 0⟩ (Update envDoc stC1 metaC1 (genId 0) "QmDoc").2
    rfl
    (by
      intro k hk
      simp only [List.mem_cons, List.not_mem_nil, or_false] at hk
      rcases hk with hk | hk
      · subst hk
        exact ⟨⟨"a", [genId 0]⟩, by decide, by decide⟩
      · subst hk
        exact ⟨⟨"b", [genId 0]⟩, by decide, by decide⟩)
    (by decide) (by decide) (by decide) (by decide)
    rfl
  exact h.1 "a" (by decide) (by decide) ⟨"a", []⟩ rfl

theorem keyword_records_no_duplicates_witness :
    KwInv ((runStores envDoc initialState []).kv) ∧
    (Store envDoc (Store envDoc initialState metaOcean1 "QmFirst").2
        metaOcean2 "QmSecond").2.kv "ocean" =
      some (.keyE ⟨"ocean", [genId 0, genId 1]⟩) ∧
    genId 0 ≠ genId 1 := by
  refine ⟨keyword_records_no_duplicates.1 envDoc [], ?_, ?_⟩
  · exact (keyword_records_no_duplicates.2 envDoc metaOcean1 metaOcean2
      ⟨"QmDagHash", genId 0⟩ ⟨"QmDagHash", genId 1⟩
      (Store envDoc initialState metaOcean1 "QmFirst").2
      (Store envDoc (Store envDoc initialState metaOcean1 "QmFirst").2
        metaOcean2 "QmSecond").2
      (by decide) (by decide) rfl rfl).1
  · exact (keyword_records_no_duplicates.2 envDoc metaOcean1 metaOcean2
      ⟨"QmDagHash", genId 0⟩ ⟨"QmDagHash", genId 1⟩
      (Store envDoc initialState metaOcean1 "QmFirst").2
      (Store envDoc (Store envDoc initialState metaOcean1 "QmFirst").2
        metaOcean2 "QmSecond").2
      (by decide) (by decide) rfl rfl).2

theorem already_indexed_idempotency_witness :
    IndexHandler envDoc stDup "ipld" "QmDup" false = (.error .alreadyIndexed, stDup) ∧
    IndexHandler envDoc (IndexHandler envDoc initialState "ipld" "QmNew" false).2
        "ipld" "QmNew" false =
      (.error .alreadyIndexed, (IndexHandler envDoc initialState "ipld" "QmNew" false).2) := by
  constructor
  · exact already_indexed_idempotency.1 envDoc stDup "QmDup" (by decide)
  · exact already_indexed_idempotency.2 envDoc initialState "QmNew"
      ⟨genId 0, ["lighthouse"]⟩ (IndexHandler envDoc initialState "ipld" "QmNew" false).2
      (by rfl) (by rfl) envDoc

theorem reindex_requires_existing_and_reuses_id_witness :
    IndexHandler envDoc initialState "ipld" "QmMissing" true =
      (.error .notFound, initialState) ∧
    (⟨genId 0, ["lighthouse"]⟩ : IndexResp).id = genId 0 ∧
    ((IndexHandler envDoc stReindex "ipld" "QmDoc2" true).2).ctr = stReindex.ctr := by
  refine ⟨?_, ?_⟩
  · exact reindex_requires_existing_and_reuses_id.1 envDoc initialState "QmMissing" rfl
  · exact reindex_requires_existing_and_reuses_id.2 envDoc stReindex "QmDoc2" (genId 0)
      ⟨genId 0, ["lighthouse"]⟩ (IndexHandler envDoc stReindex "ipld" "QmDoc2" true).2
      (by rfl) (by rfl)

theorem classification_dispatch_witness :
    MagnifyCore envPdf initialState "QmPdf" =
      (.ok ("application/pdf", ⟨["whale"], "application/pdf", "pdf"⟩), initialState) ∧
    MagnifyCore envDoc initialState "QmTxt" =
      (.ok ("text/plain",
        ⟨["lighthouse"], "text/plain; charset=utf-8", "document"⟩), initialState) ∧
    MagnifyCore envImg initialState "QmImg" =
      (.ok ("image/png", ⟨["lighthouse"], "image/png", "image"⟩), initialState) := by
  refine ⟨?_, ?_, ?_⟩
  · exact classification_dispatch.1 envPdf initialState "QmPdf" [104, 105] "pdf body"
      (by decide) (by decide) (by decide)
  · exact classification_dispatch.2.1 envDoc initialState "QmTxt" [104, 105] "text/plain"
      (by decide) (by decide) (by decide) (by decide)
  · exact classification_dispatch.2.2 envImg initialState "QmImg" [104, 105] "image/png"
      "lighthouse" (by decide) (by decide) (by decide) (by decide) (by decide)

theorem unsupported_type_no_store_write_witness :
    IndexHandler envBin initialState "ipld" "QmBin" false =
      (.error .unsupportedContentType, initialState) :=
  unsupported_type_no_store_write envBin initialState "QmBin" [104, 105]
    "application/octet-stream" "application" (by decide) (by decide) (by decide)
    (by decide) (by decide) (by decide) (by decide)

theorem analyzer_cleared_between_calls_witness :
    ((Magnify envDoc initialState "Qm1").2).ta.corpus = [] ∧
    Magnify envBin ((Magnify envDoc initialState "Qm1").2) "Qm2" =
      Magnify envBin initialState "Qm2" := by
  have h := analyzer_cleared_between_calls envDoc initialState "Qm1" rfl
  exact ⟨h.1, h.2 envBin "Qm2"⟩

theorem store_failure_leaves_name_unwritten_witness :
    Store envDoc stClash metaClash "QmNine" =
      (.error .unmarshalFailed, ⟨stClash.kv, ⟨[]⟩, 1⟩) ∧
    stClash.kv "QmNine" = none ∧
    (Magnify envBin ⟨stClash.kv, ⟨[]⟩, 1⟩ "QmNine").1 ≠ .error .alreadyIndexed := by
  have h := store_failure_leaves_name_unwritten envDoc stClash metaClash "QmNine"
    .unmarshalFailed (storeLoop stClash.kv (genId stClash.ctr) metaClash.Summary).2
    (by rfl) (by decide) (by rfl)
  exact ⟨h.1, h.2.1, h.2.2 envBin⟩

theorem store_has_no_name_guard_witness :
    genId 0 ≠ genId 1 ∧
    (Store envDoc initialState metaOcean1 "QmSame").2.kv "QmSame" =
      some (.nameE (genId 0)) ∧
    (Store envDoc (Store envDoc initialState metaOcean1 "QmSame").2
        metaReef "QmSame").2.kv "QmSame" = some (.nameE (genId 1)) ∧
    (Store envDoc (Store envDoc initialState metaOcean1 "QmSame").2
        metaReef "QmSame").2.kv (genId 0) =
      some (.objE ⟨genId 0, "QmSame", metaOcean1⟩) := by
  have h := store_has_no_name_guard envDoc initialState metaOcean1 metaReef "QmSame"
    ⟨"QmDagHash", genId 0⟩ ⟨"QmDagHash", genId 1⟩
    (Store envDoc initialState metaOcean1 "QmSame").2
    (Store envDoc (Store envDoc initialState metaOcean1 "QmSame").2 metaReef "QmSame").2
    (by rfl) (by rfl) (by decide) (by decide) (by decide) (by decide) (by decide) (by decide)
  exact ⟨h.1, h.2.1, h.2.2.1, h.2.2.2.1⟩
